import Mathlib

/-
A shallow embedding of the listener registry in
src/packages/ember-metal/lib/events.js.

The JavaScript code mutates a web of heap objects: per-owner listener
directories (meta.listeners, with prototype links created by o_create
during copy-on-write forks), per-event actions objects carrying parallel
targets and methods arrays, and the per-target method arrays themselves,
which are captured by reference and mutated in place (splice, push).
The embedding therefore uses explicit heaps indexed by allocation number
and a state-plus-exception monad; a thrown exception carries the state
at the throw point, since JavaScript does not roll effects back.
-/

namespace EmberEvents

/-- Values of the embedded JavaScript fragment: null, undefined, plain
objects (owners and targets, identified by a number standing for the
guid) and functions (listener methods, identified by a number). String
valued method names (late binding) are not exercised by any claim and
are not modelled. -/
inductive JsVal : Type
  | vNull : JsVal
  | vUndef : JsVal
  | obj : Nat → JsVal
  | fn : Nat → JsVal
deriving DecidableEq, Repr

/-- JavaScript falsiness restricted to the modelled values. -/
def jsFalsy : JsVal → Bool
  | .vNull => true
  | .vUndef => true
  | _ => false

/-- The typeof v === "function" test restricted to the modelled values. -/
def isFn : JsVal → Bool
  | .fn _ => true
  | _ => false

/-- Runtime failures: a TypeError (property access or method call on
undefined) or a failed Ember.assert precondition. -/
inductive Err : Type
  | typeError : Err
  | assertFailed : Err
deriving DecidableEq, Repr

/-- A listeners directory object (the value of meta.listeners): own
event-name properties in insertion order, the optional own marker
property written as two underscores ember source (kept as a separate
field, matching SKIP_PROPERTIES filtering it out of enumeration), and an
optional prototype link created by o_create during a fork. An entry
value of none models the explicit null written by the hasListeners
negative cache; some r points at an actions object in the heap. -/
structure DirObj where
  entries : List (String × Option Nat)
  srcProp : Option JsVal
  proto : Option Nat
deriving DecidableEq, Repr

/-- An actions object for one (owner, event): the optional own source
marker property, and parallel arrays of targets and of references to the
per-target method arrays. The array fields are Option because the
source creates the object bare and initialises them afterwards. -/
structure ActionsObj where
  src : Option JsVal
  targets : Option (List JsVal)
  methods : Option (List Nat)
deriving DecidableEq, Repr

/-- The mutable world: heaps of directory objects, actions objects and
method arrays, indexed by allocation number (position in the list, new
objects appended); the per-owner meta.listeners slot as an association
list from owner to directory reference; and two ghost fields used only
for observation, the log of invoked function ids and the scratch
accumulator of listenersFor (the local ret array of the source). -/
structure St where
  dirs : List DirObj
  acts : List ActionsObj
  marrs : List (List JsVal)
  metaL : List (Nat × Nat)
  log : List Nat
  scratch : List (JsVal × JsVal)
deriving DecidableEq, Repr

/-- Read of a directory reference (dangling references, which never
arise in a run, give a bare object). -/
def St.dirAt (s : St) (d : Nat) : DirObj :=
  (s.dirs.get? d).getD { entries := [], srcProp := none, proto := none }

/-- Read of an actions object reference. -/
def St.actAt (s : St) (a : Nat) : ActionsObj :=
  (s.acts.get? a).getD { src := none, targets := none, methods := none }

/-- Read of a method array reference. -/
def St.marrAt (s : St) (r : Nat) : List JsVal :=
  (s.marrs.get? r).getD []

/-- Read of the meta.listeners slot of an owner. -/
def St.metaAt (s : St) (o : Nat) : Option Nat :=
  List.lookup o s.metaL

/-- Association-list write used for the meta.listeners slot. -/
def assocSet : List (Nat × Nat) → Nat → Nat → List (Nat × Nat)
  | [], k, v => [(k, v)]
  | (k0, v0) :: rest, k, v =>
    if k0 = k then (k, v) :: rest else (k0, v0) :: assocSet rest k v

/-- State and exception monad over the heap state. -/
def M (α : Type) : Type := St → Except (Err × St) (α × St)

instance : Monad M where
  pure a := fun s => .ok (a, s)
  bind x f := fun s =>
    match x s with
    | .ok (a, s1) => f a s1
    | .error e => .error e

def getSt : M St := fun s => .ok (s, s)

def modifySt (f : St → St) : M Unit := fun s => .ok ((), f s)

def throwErr {α : Type} (e : Err) : M α := fun s => .error (e, s)

def getDir (d : Nat) : M DirObj := fun s => .ok (s.dirAt d, s)

def setDir (d : Nat) (v : DirObj) : M Unit :=
  modifySt fun s => { s with dirs := s.dirs.set d v }

def allocDir (v : DirObj) : M Nat := fun s =>
  .ok (s.dirs.length, { s with dirs := s.dirs ++ [v] })

def getAct (a : Nat) : M ActionsObj := fun s => .ok (s.actAt a, s)

def setAct (a : Nat) (v : ActionsObj) : M Unit :=
  modifySt fun s => { s with acts := s.acts.set a v }

def allocAct (v : ActionsObj) : M Nat := fun s =>
  .ok (s.acts.length, { s with acts := s.acts ++ [v] })

def getMarr (r : Nat) : M (List JsVal) := fun s => .ok (s.marrAt r, s)

def setMarr (r : Nat) (v : List JsVal) : M Unit :=
  modifySt fun s => { s with marrs := s.marrs.set r v }

def allocMarr (v : List JsVal) : M Nat := fun s =>
  .ok (s.marrs.length, { s with marrs := s.marrs ++ [v] })

/-- Array.prototype.indexOf with strict equality: the index of the first
occurrence, or -1 when absent. -/
def indexOf (l : List JsVal) (v : JsVal) : Int :=
  match l.findIdx? (fun x => x == v) with
  | some i => (i : Int)
  | none => -1

/-- Array.prototype.splice(i, 1): JavaScript clamps a negative start
index from the end of the array, so splice(-1, 1) on a nonempty array
removes the last element, and on an empty array removes nothing. -/
def jsSplice1 {α : Type} (l : List α) (i : Int) : List α :=
  let len : Int := (l.length : Int)
  let start : Nat := (if i < 0 then max (len + i) 0 else min i len).toNat
  l.take start ++ l.drop (start + 1)

/-- Own-property write on a directory object, preserving insertion
order of the keys. -/
def setEntry : List (String × Option Nat) → String → Option Nat → List (String × Option Nat)
  | [], k, v => [(k, v)]
  | (k0, v0) :: rest, k, v =>
    if k0 = k then (k, v) :: rest else (k0, v0) :: setEntry rest k v

def dirSetOwn (d : Nat) (ev : String) (v : Option Nat) : M Unit := do
  let dob ← getDir d
  setDir d { dob with entries := setEntry dob.entries ev v }

/-- Property read through the prototype chain. Fuel-bounded recursion:
allocation order keeps prototype links strictly decreasing, so a fuel of
the directory heap size plus one always suffices on reachable states. Returns none when the
property is absent, some none for an explicit null entry, and
some (some a) for an actions object reference. -/
def dirLookupF : Nat → Nat → String → M (Option (Option Nat))
  | 0, _, _ => pure none
  | fuel + 1, d, ev => do
    let dob ← getDir d
    match List.lookup ev dob.entries with
    | some v => pure (some v)
    | none =>
      match dob.proto with
      | some p => dirLookupF fuel p ev
      | none => pure none

def dirLookup (d : Nat) (ev : String) : M (Option (Option Nat)) := do
  let s ← getSt
  dirLookupF (s.dirs.length + 1) d ev

/-- The key sequence of a for-in loop over a directory object: own keys
in insertion order, then prototype keys not shadowed by an own key,
recursively. The source marker own property is filtered out by
SKIP_PROPERTIES in the only for-in loop of the source (watchedEvents),
so it is not emitted here. -/
def dirKeysF : Nat → Nat → M (List String)
  | 0, _ => pure []
  | fuel + 1, d => do
    let dob ← getDir d
    let own := dob.entries.map Prod.fst
    let protoKeys ←
      match dob.proto with
      | some p => dirKeysF fuel p
      | none => pure []
    pure (own ++ protoKeys.filter (fun k => !(own.contains k)))

/-- Modelled from the spec: Ember.meta (in ember-metal/utils, not part of
the given sources) provides a per-object, lazily created,
referentially identified storage slot; the registry only reads and
writes its listeners field. metaListeners implements the line
meta.listeners = meta.listeners or {} of actionsFor and the
metaPath(obj, [listeners], true) call of hasListeners: it returns the
existing directory reference, or allocates a bare directory and stores
it in the owner slot. Referential sharing between owners (an inherited
directory) is expressed by two owners whose slots hold the same
directory reference. -/
def metaListeners (o : Nat) : M Nat := do
  let s ← getSt
  match s.metaAt o with
  | some d => pure d
  | none => do
    let d ← allocDir { entries := [], srcProp := none, proto := none }
    modifySt fun s => { s with metaL := assocSet s.metaL o d }
    pure d

/-- The methodsCopy loop of the fork branch of actionsFor: a fresh
array holding a slice of each method array, in order. -/
def copyMarrs : List Nat → M (List Nat)
  | [] => pure []
  | r :: rest => do
    let arr ← getMarr r
    let r2 ← allocMarr arr
    let rest2 ← copyMarrs rest
    pure (r2 :: rest2)

/-- actionsFor (events.js line 44). Looks up (and always re-assigns as
an own property) the actions object for the event, creating a bare
object with the source marker of the calling owner when the entry is
absent or null. When the source marker of the found object is not the
calling owner, forks: the directory is replaced by an o_create child
carrying its own source marker, and the actions object is replaced by a
value copy of the targets array and of every method array; otherwise the
targets and methods arrays are initialised in place if missing. The
target and writable parameters of the source are unused in its body
and omitted here (every call in the source passes writable true). -/
def actionsFor (o : Nat) (ev : String) : M Nat := do
  let d ← metaListeners o
  let lk ← dirLookup d ev
  let a ← match lk with
    | some (some a0) => do
        dirSetOwn d ev (some a0)
        pure a0
    | _ => do
        let a0 ← allocAct { src := some (JsVal.obj o), targets := none, methods := none }
        dirSetOwn d ev (some a0)
        pure a0
  let aob ← getAct a
  if aob.src = some (JsVal.obj o) then do
    setAct a { aob with targets := some (aob.targets.getD []),
                        methods := some (aob.methods.getD []) }
    pure a
  else do
    let d2 ← allocDir { entries := [], srcProp := some (JsVal.obj o), proto := some d }
    modifySt fun s => { s with metaL := assocSet s.metaL o d2 }
    let ms ← match aob.methods with
      | some ms => pure ms
      | none => throwErr .typeError
    let mcopy ← copyMarrs ms
    let ts ← match aob.targets with
      | some ts => pure ts
      | none => throwErr .typeError
    let a2 ← allocAct { src := none, targets := some ts, methods := some mcopy }
    dirSetOwn d2 ev (some a2)
    pure a2

/-- targetSetFor (events.js line 70): the actions object for the event
in read mode, or none (the source returns false) when the owner has no
listeners slot, the entry is absent, or the entry is the null marker. -/
def targetSetFor (o : Nat) (ev : String) : M (Option Nat) := do
  let s ← getSt
  match s.metaAt o with
  | none => pure none
  | some d => do
    let lk ← dirLookup d ev
    match lk with
    | some (some a) => pure (some a)
    | _ => pure none

/-- The inner loop of iterateSet: j runs downward from the method array
length captured at loop entry; each step re-reads the live array, skips
a falsy (deleted or out of bounds) slot, and stops when the callback
returns true. -/
def iterInner (cb : JsVal → JsVal → M Bool) (target : JsVal) (r : Nat) : Nat → M Bool
  | 0 => pure false
  | j + 1 => do
    let arr ← getMarr r
    match arr.get? j with
    | none => iterInner cb target r j
    | some m =>
      if jsFalsy m then iterInner cb target r j
      else do
        let b ← cb target m
        if b then pure true else iterInner cb target r j

/-- The outer loop of iterateSet: i runs upward to the targets length
captured at loop entry (rem is the remaining step count); each step
re-reads the live actions object, so a concurrently spliced targets
array yields undefined reads past its current end. Reading the method
array slot of the row fails with a TypeError when it is undefined, as
methods.length does in the source. -/
def iterOuterGo (cb : JsVal → JsVal → M Bool) (a : Nat) : Nat → Nat → M Bool
  | _, 0 => pure false
  | i, rem + 1 => do
    let aob ← getAct a
    match aob.targets with
    | none => throwErr .typeError
    | some tsNow =>
      let target := (tsNow.get? i).getD JsVal.vUndef
      match (aob.methods.getD []).get? i with
      | none => throwErr .typeError
      | some r => do
        let arr ← getMarr r
        let stop ← iterInner cb target r arr.length
        if stop then pure true else iterOuterGo cb a (i + 1) rem

/-- iterateSet (events.js line 81): visits every (target, method) pair,
rows in order and methods within a row in reverse index order, stopping
early iff the callback returns true. A false actions argument (none) or
an actions object without a targets array returns false at once. -/
def iterateSet (actions : Option Nat) (cb : JsVal → JsVal → M Bool) : M Bool := do
  match actions with
  | none => pure false
  | some a => do
    let aob ← getAct a
    match aob.targets with
    | none => pure false
    | some ts => iterOuterGo cb a 0 ts.length

/-- addListener (events.js line 171). The didAddListener owner hook is
not modelled: owners in this embedding carry no hook methods. The
branch reassigning an undefined method array slot is expressed as an
append, since the index is of a found target and hence in bounds of the
targets array, which is never longer than the methods array in any
reachable state. -/
def addListener (o : Nat) (ev : String) (target0 method0 : JsVal) : M Unit := do
  if ev = "" then throwErr .assertFailed else do
  let target := if jsFalsy method0 && isFn target0 then JsVal.vNull else target0
  let method := if jsFalsy method0 && isFn target0 then target0 else method0
  let a ← actionsFor o ev
  let aob ← getAct a
  let ti := indexOf (aob.targets.getD []) target
  if 0 ≤ ti then do
    let r ← match (aob.methods.getD []).get? ti.toNat with
      | some r => pure r
      | none => do
          let r ← allocMarr []
          let aob2 ← getAct a
          setAct a { aob2 with methods := some ((aob2.methods.getD []) ++ [r]) }
          pure r
    let arr ← getMarr r
    if 0 ≤ indexOf arr method then pure () else setMarr r (arr ++ [method])
  else do
    let r ← allocMarr [method]
    let aob2 ← getAct a
    setAct a { aob2 with targets := some ((aob2.targets.getD []) ++ [target]),
                         methods := some ((aob2.methods.getD []) ++ [r]) }

/-- The nested helper of removeListener (events.js line 218). When the
target row is absent (index -1) or the slot undefined, targetMethods
falls back to a fresh empty array; the emptiness check then runs
actions.targets.splice(targetIndex, 1) with the original index, which at
-1 removes the last row of targets. The source splices only targets,
never methods. The didRemoveListener owner hook is not modelled. -/
def _removeListener (o : Nat) (ev : String) (t m : JsVal) : M Unit := do
  let a ← actionsFor o ev
  let aob ← getAct a
  let ti := indexOf (aob.targets.getD []) t
  let r ← match (if 0 ≤ ti then (aob.methods.getD []).get? ti.toNat else none) with
    | some r => pure r
    | none => allocMarr []
  let arr ← getMarr r
  let tmi := indexOf arr m
  if 0 ≤ tmi then setMarr r (jsSplice1 arr tmi) else pure ()
  let arr2 ← getMarr r
  if arr2.length = 0 then do
    let aob2 ← getAct a
    setAct a { aob2 with targets := some (jsSplice1 (aob2.targets.getD []) ti) }
  else pure ()

/-- removeListener (events.js line 210): with a truthy method, remove
the single pair; with the method omitted, iterate the live action set
and remove every visited pair. -/
def removeListener (o : Nat) (ev : String) (target0 method0 : JsVal) : M Unit := do
  if ev = "" then throwErr .assertFailed else do
  let target := if jsFalsy method0 && isFn target0 then JsVal.vNull else target0
  let method := if jsFalsy method0 && isFn target0 then target0 else method0
  if !(jsFalsy method) then _removeListener o ev target method
  else do
    let ts ← targetSetFor o ev
    let _ ← iterateSet ts (fun t m => do
      _removeListener o ev t m
      pure false)
    pure ()

/-- The try finally block shared by the suspend functions: run the
callback, then on either exit path push the removed method (when one
was removed and is truthy) back onto the captured method array. -/
def tryFinallyPush {β : Type} (callback : M β) (r : Nat) (removed : Option JsVal) : M β :=
  fun st =>
    let fin := fun (st1 : St) =>
      match removed with
      | some m =>
        if jsFalsy m then st1
        else { st1 with marrs := st1.marrs.set r (st1.marrAt r ++ [m]) }
      | none => st1
    match callback st with
    | .ok (v, st1) => .ok (v, fin st1)
    | .error (e, st1) => .error (e, fin st1)

/-- suspendListener (events.js line 259). When the target has no row,
actions.methods[targetIndex] is undefined and the indexOf call on it
throws a TypeError. When the pair is present, its method is spliced out
and pushed back onto the same method array after the callback, on both
exit paths. The callback result type is polymorphic, as in the untyped
source. -/
def suspendListener {β : Type} (o : Nat) (ev : String) (target0 method0 : JsVal)
    (callback : M β) : M β := do
  let target := if jsFalsy method0 && isFn target0 then JsVal.vNull else target0
  let method := if jsFalsy method0 && isFn target0 then target0 else method0
  let a ← actionsFor o ev
  let aob ← getAct a
  let ti := indexOf (aob.targets.getD []) target
  match (if 0 ≤ ti then (aob.methods.getD []).get? ti.toNat else none) with
  | none => throwErr .typeError
  | some r => do
    let arr ← getMarr r
    let tmi := indexOf arr method
    let removed ← if 0 ≤ tmi then do
        setMarr r (jsSplice1 arr tmi)
        pure (some method)
      else pure (none : Option JsVal)
    tryFinallyPush callback r removed

/-- The per-event loop of suspendListeners: for each event name, splice
the method out when present, record the removed method, and always
record the method array of the row (throwing a TypeError when the
target has no row, as the indexOf call on undefined does). -/
def suspendLoop (o : Nat) (target method : JsVal) :
    List String → List JsVal → List Nat → M (List JsVal × List Nat)
  | [], rm, tma => pure (rm, tma)
  | ev :: rest, rm, tma => do
    let a ← actionsFor o ev
    let aob ← getAct a
    let ti := indexOf (aob.targets.getD []) target
    match (if 0 ≤ ti then (aob.methods.getD []).get? ti.toNat else none) with
    | none => throwErr .typeError
    | some r => do
      let arr ← getMarr r
      let tmi := indexOf arr method
      let rm2 ← if 0 ≤ tmi then do
          setMarr r (jsSplice1 arr tmi)
          pure (rm ++ [method])
        else pure rm
      suspendLoop o target method rest rm2 (tma ++ [r])

/-- The finally block of suspendListeners: push removedMethods[i] onto
targetMethodArrays[i] for each i below the removedMethods length. The
two lists align index for index only when every event had a match. -/
def restoreAll : List JsVal → List Nat → St → St
  | [], _, st => st
  | _ :: _, [], st => st
  | m :: ms, r :: rs, st =>
    restoreAll ms rs
      { st with marrs := st.marrs.set r (st.marrAt r ++ [m]) }

/-- suspendListeners (events.js line 300): suspend one (target, method)
pair across several event names around the callback. -/
def suspendListeners {β : Type} (o : Nat) (evs : List String) (target0 method0 : JsVal)
    (callback : M β) : M β := do
  let target := if jsFalsy method0 && isFn target0 then JsVal.vNull else target0
  let method := if jsFalsy method0 && isFn target0 then target0 else method0
  let (rm, tma) ← suspendLoop o target method evs [] []
  fun st =>
    match callback st with
    | .ok (v, st1) => .ok (v, restoreAll rm tma st1)
    | .error (e, st1) => .error (e, restoreAll rm tma st1)

/-- The filtering loop of watchedEvents: keep each for-in key whose
directory value is truthy (an actions object reference; the null
marker and absent entries are falsy). -/
def watchedGo (d : Nat) : List String → List String → M (List String)
  | [], acc => pure acc
  | k :: rest, acc => do
    let lk ← dirLookup d k
    match lk with
    | some (some _) => watchedGo d rest (acc ++ [k])
    | _ => watchedGo d rest acc

/-- watchedEvents (events.js line 341): the event names with a truthy
entry in the directory, in for-in order, the source marker excluded by
SKIP_PROPERTIES. -/
def watchedEvents (o : Nat) : M (List String) := do
  let s ← getSt
  match s.metaAt o with
  | none => pure []
  | some d => do
    let keys ← dirKeysF (s.dirs.length + 1) d
    watchedGo d keys []

/-- hasListeners (events.js line 383): true iff iterateSet visits at
least one pair; on a negative answer the directory entry for the event
is overwritten with the null marker as a cache, creating the listeners
slot if absent (the metaPath call, see metaListeners). -/
def hasListeners (o : Nat) (ev : String) : M Bool := do
  let ts ← targetSetFor o ev
  let b ← iterateSet ts (fun _ _ => pure true)
  if b then pure true
  else do
    let d ← metaListeners o
    dirSetOwn d ev none
    pure false

/-- listenersFor (events.js line 402): flatten the action set into
(target, method) pairs in iteration order. The local ret array of the
source is modelled by the ghost scratch field, saved and restored
around the call. -/
def listenersFor (o : Nat) (ev : String) : M (List (JsVal × JsVal)) := do
  let s0 ← getSt
  let saved := s0.scratch
  modifySt fun s => { s with scratch := [] }
  let ts ← targetSetFor o ev
  let _ ← iterateSet ts (fun t m => do
    modifySt fun s => { s with scratch := s.scratch ++ [(t, m)] }
    pure false)
  let s1 ← getSt
  let ret := s1.scratch
  modifySt fun s => { s with scratch := saved }
  pure ret

/-- invokeAction (events.js line 101), parameterised by the behaviour
table tbl giving each function id its effect. A falsy target is
replaced by the sender. String named methods (late binding) are not
exercised by the claims; invoking a non-function value throws. Each
invocation is recorded in the ghost log. The params argument only
selects between apply with and without arguments and the modelled
behaviours ignore their arguments, so it is not threaded further. -/
def invokeAction (tbl : Nat → JsVal → M Unit) (target m : JsVal) (sender : Nat) : M Unit := do
  let t := if jsFalsy target then JsVal.obj sender else target
  match m with
  | JsVal.fn n => do
      modifySt fun s => { s with log := s.log ++ [n] }
      tbl n t
  | _ => throwErr .typeError

/-- sendEvent (events.js line 362): iterate the action set, invoking
every pair; always returns true. The owner-side custom sendEvent hook
is not modelled (owners carry no hook methods). A falsy targetSet
argument (none here) is replaced by targetSetFor. -/
def sendEvent (tbl : Nat → JsVal → M Unit) (o : Nat) (ev : String)
    (targetSet : Option Nat) : M Bool := do
  let ts ← match targetSet with
    | some r => pure (some r)
    | none => targetSetFor o ev
  let _ ← iterateSet ts (fun t m => do
    invokeAction tbl t m o
    pure false)
  pure true

/-- targetSetUnion (events.js line 114): add every pair of the action
set of (obj, eventName) that is absent from the accumulator actions
object, initialising the accumulator arrays if missing. -/
def targetSetUnion (o : Nat) (ev : String) (a : Nat) : M Unit := do
  let aob0 ← getAct a
  setAct a { aob0 with targets := some (aob0.targets.getD []),
                       methods := some (aob0.methods.getD []) }
  let ts ← targetSetFor o ev
  let _ ← iterateSet ts (fun t m => do
    let aob ← getAct a
    let ti := indexOf (aob.targets.getD []) t
    if 0 ≤ ti then
      match (aob.methods.getD []).get? ti.toNat with
      | none => throwErr .typeError
      | some r => do
        let arr ← getMarr r
        if 0 ≤ indexOf arr m then pure () else setMarr r (arr ++ [m])
    else do
      let r ← allocMarr [m]
      let aob2 ← getAct a
      setAct a { aob2 with targets := some ((aob2.targets.getD []) ++ [t]),
                           methods := some ((aob2.methods.getD []) ++ [r]) }
    pure false)
  pure ()

/-- addAction (events.js line 134): append the method to the row of the
target when the row exists and the method is absent; in every other
case (no row, or method already present) push a fresh row. -/
def addAction (a : Nat) (t m : JsVal) : M Unit := do
  let aob ← getAct a
  let ti := indexOf (aob.targets.getD []) t
  let tmRef := if 0 ≤ ti then (aob.methods.getD []).get? ti.toNat else none
  match tmRef with
  | some r => do
    let arr ← getMarr r
    if indexOf arr m = -1 then setMarr r (arr ++ [m])
    else do
      let r2 ← allocMarr [m]
      let aob2 ← getAct a
      setAct a { aob2 with targets := some ((aob2.targets.getD []) ++ [t]),
                           methods := some ((aob2.methods.getD []) ++ [r2]) }
  | none => do
    let r2 ← allocMarr [m]
    let aob2 ← getAct a
    setAct a { aob2 with targets := some ((aob2.targets.getD []) ++ [t]),
                         methods := some ((aob2.methods.getD []) ++ [r2]) }

/-- targetSetDiff (events.js line 146): for every pair of the action set
of (obj, eventName) absent from the accumulator, add it to both the
accumulator and a fresh result actions object; return the result. -/
def targetSetDiff (o : Nat) (ev : String) (a : Nat) : M Nat := do
  let aob0 ← getAct a
  setAct a { aob0 with targets := some (aob0.targets.getD []),
                       methods := some (aob0.methods.getD []) }
  let diff ← allocAct { src := none, targets := some [], methods := some [] }
  let ts ← targetSetFor o ev
  let _ ← iterateSet ts (fun t m => do
    let aob ← getAct a
    let ti := indexOf (aob.targets.getD []) t
    let tmRef := if 0 ≤ ti then (aob.methods.getD []).get? ti.toNat else none
    let present ← match tmRef with
      | some r => do
        let arr ← getMarr r
        pure (indexOf arr m != -1)
      | none => pure false
    if present then pure false
    else do
      addAction a t m
      addAction diff t m
      pure false)
  pure diff

/-- The empty world: no directories, no actions objects, no arrays, no
owner has a listeners slot. -/
def St.empty : St :=
  { dirs := [], acts := [], marrs := [], metaL := [], log := [], scratch := [] }

/-- The value of a run, discarding the final state; none on a thrown
exception. -/
def evalM {α : Type} (p : M α) (st : St) : Option α :=
  match p st with
  | .ok (a, _) => some a
  | .error _ => none

/-- The exception of a run, if one was thrown. -/
def errOf {α : Type} (p : M α) (st : St) : Option Err :=
  match p st with
  | .ok _ => none
  | .error (e, _) => some e

/-- The final state of a run, whether it returned or threw. -/
def finalSt {α : Type} (p : M α) (st : St) : St :=
  match p st with
  | .ok (_, st1) => st1
  | .error (_, st1) => st1

/-- The listenersFor observation as a pure function of a state. -/
def listenersRes (st : St) (o : Nat) (ev : String) : List (JsVal × JsVal) :=
  (evalM (listenersFor o ev) st).getD []

/-- The flattened (target, method) pairs of a raw actions object, row
major in forward order, for inspecting union and diff results. -/
def actionPairs (st : St) (a : Nat) : List (JsVal × JsVal) :=
  let aob := st.actAt a
  let ts := aob.targets.getD []
  let ms := aob.methods.getD []
  (List.range ts.length).foldl
    (fun acc i =>
      acc ++ (st.marrAt ((ms.get? i).getD 0)).map
        (fun m => ((ts.get? i).getD JsVal.vUndef, m)))
    []

/-- The outcome of a run: the returned value or the thrown exception,
discarding the final state. -/
def outcomeOf {α : Type} (p : M α) (st : St) : Except Err α :=
  match p st with
  | .ok (v, _) => .ok v
  | .error (e, _) => .error e

/-- A callback that touches no registry state and exits with the given
outcome, normal or raising. -/
def bodyOf (bres : Except Err JsVal) : M JsVal := fun st =>
  match bres with
  | .ok v => .ok (v, st)
  | .error e => .error (e, st)

/-- C1 scenario, step 1: owner 0 registers the pair (obj 1, fn 10) on
event evA. -/
def c1s1 : St := finalSt (addListener 0 "evA" (JsVal.obj 1) (JsVal.fn 10)) St.empty

/-- C1 scenario, step 2: removeListener with the unregistered pair
(obj 2, fn 20), whose target has no row in the action set. -/
def c1s2 : St := finalSt (removeListener 0 "evA" (JsVal.obj 2) (JsVal.fn 20)) c1s1

/-- C2 scenario, step 1: register (obj 1, fn 10) on event evB. -/
def c2s1 : St := finalSt (addListener 0 "evB" (JsVal.obj 1) (JsVal.fn 10)) St.empty

/-- C2 scenario, step 2: register (obj 2, fn 11). -/
def c2s2 : St := finalSt (addListener 0 "evB" (JsVal.obj 2) (JsVal.fn 11)) c2s1

/-- C2 scenario, step 3: remove the registered pair (obj 1, fn 10). -/
def c2s3 : St := finalSt (removeListener 0 "evB" (JsVal.obj 1) (JsVal.fn 10)) c2s2

/-- Scenario state for C3: owners 1 (A) and 2 (B) referentially share
directory 0, whose source marker is A, and no event is registered. -/
def c3st0 : St :=
  { St.empty with
    dirs := [{ entries := [], srcProp := some (JsVal.obj 1), proto := none }],
    metaL := [(1, 0), (2, 0)] }

/-- C3 scenario, step 1: A checks hasListeners for the fresh event x
(false, and the null marker is cached in the shared directory). -/
def c3s1 : St := finalSt (hasListeners 1 "x") c3st0

/-- C3 scenario, step 2: B registers a listener for x through the
shared directory. -/
def c3s2 : St := finalSt (addListener 2 "x" JsVal.vNull (JsVal.fn 5)) c3s1

/-- C4 scenario: the row of obj 1 on event evD holds fn 10 and fn 11. -/
def c4h1 : St := finalSt (addListener 0 "evD" (JsVal.obj 1) (JsVal.fn 10)) St.empty

/-- C4 scenario: second method on the same row. -/
def c4heap : St := finalSt (addListener 0 "evD" (JsVal.obj 1) (JsVal.fn 11)) c4h1

/-- A body that removes the sibling method of the suspended pair,
emptying the row so that removeListener deletes the row. -/
def c4body : M JsVal := do
  removeListener 0 "evD" (JsVal.obj 1) (JsVal.fn 11)
  pure JsVal.vUndef

/-- Suspending (obj 1, fn 10) around the row deleting body. -/
def c4run : M JsVal := suspendListener 0 "evD" (JsVal.obj 1) (JsVal.fn 10) c4body

/-- The state after the C4 counterexample run. -/
def c4after : St := finalSt c4run c4heap

/-- Scenario state for the amended C4: the single registered pair
(obj 1, fn 10) on event evD2. -/
def c4st1 : St := finalSt (addListener 0 "evD2" (JsVal.obj 1) (JsVal.fn 10)) St.empty

/-- C5 scenario: one row on event evE with methods fn 1, fn 2, fn 3. -/
def c5h1 : St := finalSt (addListener 0 "evE" JsVal.vNull (JsVal.fn 1)) St.empty

def c5h2 : St := finalSt (addListener 0 "evE" JsVal.vNull (JsVal.fn 2)) c5h1

def c5heap : St := finalSt (addListener 0 "evE" JsVal.vNull (JsVal.fn 3)) c5h2

/-- Behaviours for the C5 counterexample: fn 3, which reverse iteration
visits first, removes the not yet invoked fn 1. -/
def c5tbl : Nat → JsVal → M Unit := fun n _ =>
  if n = 3 then removeListener 0 "evE" JsVal.vNull (JsVal.fn 1) else pure ()

/-- The state after the C5 counterexample dispatch. -/
def c5sent : St := finalSt (sendEvent c5tbl 0 "evE" none) c5heap

/-- Behaviours for the amended C5: fn 1, visited last, removes the
already invoked fn 3. -/
def c5btbl : Nat → JsVal → M Unit := fun n _ =>
  if n = 1 then removeListener 0 "evE" JsVal.vNull (JsVal.fn 3) else pure ()

/-- The state after the amended C5 dispatch. -/
def c5bsent : St := finalSt (sendEvent c5btbl 0 "evE" none) c5heap

/-- C6 scenario: rows for two distinct targets on event evF. -/
def c6h1 : St := finalSt (addListener 0 "evF" (JsVal.obj 1) (JsVal.fn 21)) St.empty

def c6heap : St := finalSt (addListener 0 "evF" (JsVal.obj 2) (JsVal.fn 22)) c6h1

/-- The C6 call under test: removeListener with a target and the method
omitted. -/
def c6run : M Unit := removeListener 0 "evF" (JsVal.obj 1) JsVal.vUndef

/-- The state after the C6 run. -/
def c6after : St := finalSt c6run c6heap

/-- C7 scenario: one pair registered on event evG. -/
def c7s1 : St := finalSt (addListener 0 "evG" (JsVal.obj 1) (JsVal.fn 30)) St.empty

/-- C7 scenario: the same pair removed with identical arguments. -/
def c7removed : St := finalSt (removeListener 0 "evG" (JsVal.obj 1) (JsVal.fn 30)) c7s1

/-- C7 scenario: the state after a hasListeners check on the emptied
event (the check caches the null marker). -/
def c7checked : St := finalSt (hasListeners 0 "evG") c7removed

/-- C8 scenario: L1 = fn 11, L2 = fn 12, L3 = fn 13 registered in that
order on event evH, all with a null target, hence one row. -/
def c8h1 : St := finalSt (addListener 0 "evH" JsVal.vNull (JsVal.fn 11)) St.empty

def c8h2 : St := finalSt (addListener 0 "evH" JsVal.vNull (JsVal.fn 12)) c8h1

def c8heap : St := finalSt (addListener 0 "evH" JsVal.vNull (JsVal.fn 13)) c8h2

/-- Behaviours for C8: the body of L2 removes L2 itself. -/
def c8tbl : Nat → JsVal → M Unit := fun n _ =>
  if n = 12 then removeListener 0 "evH" JsVal.vNull (JsVal.fn 12) else pure ()

/-- The state after the C8 dispatch. -/
def c8sent : St := finalSt (sendEvent c8tbl 0 "evH" none) c8heap

/-- C9 scenario: owner 1 holds (obj 3, fn 51) and (obj 4, fn 52) on
event evI. -/
def c9s1 : St := finalSt (addListener 1 "evI" (JsVal.obj 3) (JsVal.fn 51)) St.empty

def c9s2 : St := finalSt (addListener 1 "evI" (JsVal.obj 4) (JsVal.fn 52)) c9s1

/-- C9 scenario: a caller-built accumulator actions object already
holding (obj 3, fn 51); its method array is allocated first (reference
2) and then the actions object itself (reference 1). -/
def c9s3 : St := finalSt (allocMarr [JsVal.fn 51]) c9s2

def c9s4 : St := finalSt (allocAct { src := none, targets := some [JsVal.obj 3], methods := some [2] }) c9s3

/-- The first diff of the source into the accumulator. -/
def c9d1 : M Nat := targetSetDiff 1 "evI" 1

def c9s5 : St := finalSt c9d1 c9s4

/-- The second diff with the same source and accumulator. -/
def c9d2 : M Nat := targetSetDiff 1 "evI" 1

def c9s6 : St := finalSt c9d2 c9s5

/-- Scenario state for C10: the single registered pair (obj 1, fn 40)
on event evJ. -/
def c10heap : St := finalSt (addListener 0 "evJ" (JsVal.obj 1) (JsVal.fn 40)) St.empty

/-- The C10 call under test: suspending a pair whose target has no row
in the action set. -/
def c10run : M JsVal := suspendListener 0 "evJ" (JsVal.obj 2) (JsVal.fn 41) (pure JsVal.vUndef)

/-- Claim C1 (code bug): events.js line 225 runs
actions.targets.splice(targetIndex, 1) even when targetIndex is -1,
which JavaScript clamps to the last row. Removing the unregistered pair
(obj 2, fn 20), whose target has no row, therefore deletes the
registered row of obj 1: the listeners go from [(obj 1, fn 10)] to [],
refuting the claim that such a removal leaves observable state
unchanged. No error is raised (the run returns a value). -/
theorem c1_code_bug :
    listenersRes c1s1 0 "evA" = [(JsVal.obj 1, JsVal.fn 10)]
    ∧ evalM (removeListener 0 "evA" (JsVal.obj 2) (JsVal.fn 20)) c1s1 = some ()
    ∧ listenersRes c1s2 0 "evA" = [] := by
  refine ⟨?_, ?_, ?_⟩ <;> rfl

/-- Claim C2 (code bug): _removeListener (events.js line 225) splices
the emptied row out of actions.targets but never out of
actions.methods. After adding (obj 1, fn 10) and (obj 2, fn 11) and
removing only the first pair, the action set (reference 0) has targets
[obj 2] but method arrays [[], [fn 11]]: the remaining target obj 2 is
paired index for index with the emptied method list, and listenersFor
returns [] although (obj 2, fn 11) was never removed. -/
theorem c2_code_bug :
    listenersRes c2s2 0 "evB" = [(JsVal.obj 1, JsVal.fn 10), (JsVal.obj 2, JsVal.fn 11)]
    ∧ evalM (targetSetFor 0 "evB") c2s3 = some (some 0)
    ∧ (c2s3.actAt 0).targets = some [JsVal.obj 2]
    ∧ (c2s3.actAt 0).methods = some [0, 1]
    ∧ c2s3.marrAt 0 = []
    ∧ c2s3.marrAt 1 = [JsVal.fn 11]
    ∧ listenersRes c2s3 0 "evB" = [] := by
  refine ⟨?_, ?_, ?_, ?_, ?_, ?_, ?_⟩ <;> rfl

/-- Claim C3 (code bug): actionsFor (events.js line 47) writes the newly
created actions object for a fresh event name as a property of the
directory object before the source marker check, so when B shares the
directory of A the new action set is created inside the shared
directory; the copy on write fork only triggers for an event whose
entry already exists with a foreign source marker. Starting from a
shared empty directory, hasListeners(A, x) is false, B adds a listener
for x, and then hasListeners(A, x) is true and listenersFor(A, x)
returns the pair B registered. -/
theorem c3_code_bug :
    evalM (hasListeners 1 "x") c3st0 = some false
    ∧ evalM (hasListeners 1 "x") c3s2 = some true
    ∧ listenersRes c3s2 1 "x" = [(JsVal.vNull, JsVal.fn 5)] := by
  refine ⟨?_, ?_, ?_⟩ <;> rfl

/-- Claim C4 counterexample: with (obj 1, fn 10) and (obj 1, fn 11)
registered, suspending (obj 1, fn 10) around a body that removes the
sibling pair (obj 1, fn 11) returns normally, yet afterwards
listenersFor is empty: the body emptied the row, removeListener deleted
the row from targets, and the finally block pushed fn 10 back onto the
detached method array, so the pair is not registered again after
suspend returns, refuting the claim for this body. -/
theorem c4_counterexample :
    evalM c4run c4heap = some JsVal.vUndef
    ∧ listenersRes c4after 0 "evD" = [] := by
  refine ⟨?_, ?_⟩ <;> rfl

/-- Claim C4 (amended): with the pair (obj 1, fn 10) registered and a
body that leaves the registry untouched, suspendListener removes the
pair before the body runs (a body reading listenersFor sees []),
propagates the body outcome exactly, whether it returns normally or
raises, and on both exit paths the pair is present in listenersFor
afterwards. -/
theorem c4_amended (bres : Except Err JsVal) :
    outcomeOf (suspendListener 0 "evD2" (JsVal.obj 1) (JsVal.fn 10) (bodyOf bres)) c4st1 = bres
    ∧ listenersRes
        (finalSt (suspendListener 0 "evD2" (JsVal.obj 1) (JsVal.fn 10) (bodyOf bres)) c4st1)
        0 "evD2"
      = [(JsVal.obj 1, JsVal.fn 10)]
    ∧ evalM (suspendListener 0 "evD2" (JsVal.obj 1) (JsVal.fn 10) (listenersFor 0 "evD2")) c4st1
      = some [] := by
  cases bres <;> exact ⟨rfl, rfl, rfl⟩

/-- Claim C5 counterexample: with one row holding fn 1, fn 2, fn 3, the
listener fn 3 (visited first by the reverse iteration) removes the not
yet invoked fn 1 during dispatch. The invocation log is [3, 3, 2]:
fn 3 is invoked twice in the dispatch, refuting the claim that no
single listener is invoked more than once under mid-iteration
mutation. -/
theorem c5_counterexample :
    evalM (sendEvent c5tbl 0 "evE" none) c5heap = some true
    ∧ c5sent.log = [3, 3, 2]
    ∧ c5sent.log.count 3 = 2 := by
  refine ⟨?_, ?_, ?_⟩ <;> rfl

/-- Claim C5 (amended): mutation confined to removing oneself or an
already invoked pair is tolerated. In the same three listener row, fn 1
(visited last) removes the already invoked fn 3 during dispatch: the
send returns true (no crash) and the log is [3, 2, 1], each listener
invoked exactly once with none skipped. -/
theorem c5_amended :
    evalM (sendEvent c5btbl 0 "evE" none) c5heap = some true
    ∧ c5bsent.log = [3, 2, 1]
    ∧ c5bsent.log.count 1 = 1 ∧ c5bsent.log.count 2 = 1 ∧ c5bsent.log.count 3 = 1 := by
  refine ⟨?_, ?_, ?_, ?_, ?_⟩ <;> rfl

set_option maxHeartbeats 3200000 in
/-- Claim C6 counterexample: with rows (obj 1, fn 21) and
(obj 2, fn 22), calling removeListener with target obj 1 and the method
omitted also removes the pair of the other target obj 2, refuting the
claim that every other row is unchanged: the source branch for an
omitted method iterates the whole live action set and removes every
visited pair, ignoring the given target. -/
theorem c6_counterexample :
    listenersRes c6heap 0 "evF" = [(JsVal.obj 1, JsVal.fn 21), (JsVal.obj 2, JsVal.fn 22)]
    ∧ evalM c6run c6heap = some ()
    ∧ (JsVal.obj 2, JsVal.fn 22) ∉ listenersRes c6after 0 "evF" := by
  refine ⟨?_, ?_, ?_⟩ <;> first | rfl | decide

set_option maxHeartbeats 3200000 in
/-- Claim C6 (amended): removeListener with the method omitted removes
every (target, method) pair registered for the event, for all targets,
not only the given one: afterwards listenersFor returns []. -/
theorem c6_amended :
    listenersRes c6heap 0 "evF" = [(JsVal.obj 1, JsVal.fn 21), (JsVal.obj 2, JsVal.fn 22)]
    ∧ listenersRes c6after 0 "evF" = [] := by
  refine ⟨?_, ?_⟩ <;> rfl

/-- Claim C7 counterexample: after addListener and removeListener with
identical arguments, watchedEvents still yields the event name, because
the emptied actions object left in the directory is truthy; this
refutes the claim that watchedEvents excludes the event when no
listeners remain. -/
theorem c7_counterexample :
    evalM (watchedEvents 0) c7removed = some ["evG"] := by rfl

/-- Claim C7 (amended): after add then remove with identical arguments,
hasListeners is false, but watchedEvents still includes the event until
a hasListeners call overwrites the directory entry with the null
marker, after which watchedEvents excludes it. -/
theorem c7_amended :
    evalM (watchedEvents 0) c7removed = some ["evG"]
    ∧ evalM (hasListeners 0 "evG") c7removed = some false
    ∧ evalM (watchedEvents 0) c7checked = some [] := by
  refine ⟨?_, ?_, ?_⟩ <;> rfl

/-- Claim C8: with L1 = fn 11, L2 = fn 12, L3 = fn 13 registered in that
order and the body of L2 removing L2 itself, sendEvent returns true and
the invocation log is [13, 12, 11]: each of the three listeners is
invoked exactly once in that dispatch. -/
theorem c8_reentrant_self_removal :
    evalM (sendEvent c8tbl 0 "evH" none) c8heap = some true
    ∧ c8sent.log = [13, 12, 11]
    ∧ c8sent.log.count 11 = 1 ∧ c8sent.log.count 12 = 1 ∧ c8sent.log.count 13 = 1 := by
  refine ⟨?_, ?_, ?_, ?_, ?_⟩ <;> rfl

/-- Claim C9: with source pairs (obj 3, fn 51) and (obj 4, fn 52) and an
accumulator (actions object 1) holding (obj 3, fn 51), targetSetDiff
returns actions object 2 containing exactly (obj 4, fn 52), the
accumulator afterwards holds both pairs, and a second call with the
same source and accumulator returns actions object 3, which is empty. -/
theorem c9_diff :
    evalM (allocMarr [JsVal.fn 51]) c9s2 = some 2
    ∧ evalM (allocAct { src := none, targets := some [JsVal.obj 3], methods := some [2] }) c9s3
        = some 1
    ∧ evalM c9d1 c9s4 = some 2
    ∧ actionPairs c9s5 2 = [(JsVal.obj 4, JsVal.fn 52)]
    ∧ actionPairs c9s5 1 = [(JsVal.obj 3, JsVal.fn 51), (JsVal.obj 4, JsVal.fn 52)]
    ∧ evalM c9d2 c9s5 = some 3
    ∧ actionPairs c9s6 3 = [] := by
  refine ⟨?_, ?_, ?_, ?_, ?_, ?_, ?_⟩ <;> rfl

/-- Claim C10 counterexample: with only (obj 1, fn 40) registered,
suspending the pair (obj 2, fn 41), whose target has no row, throws a
TypeError: targetIndex is -1, actions.methods[-1] is undefined, and the
indexOf call on it fails, refuting the claim that suspend does not fail
when the target has no row. -/
theorem c10_counterexample :
    errOf c10run c10heap = some Err.typeError := by rfl

/-- Claim C10 (amended): when the target has a row but the method is not
registered in it (fn 41 on the row of obj 1 holding only fn 40),
suspendListener executes the body, propagates its outcome exactly on
both exit paths, and leaves the listeners unchanged; when the target
has no row at all it instead throws a TypeError. -/
theorem c10_amended (bres : Except Err JsVal) :
    outcomeOf (suspendListener 0 "evJ" (JsVal.obj 1) (JsVal.fn 41) (bodyOf bres)) c10heap = bres
    ∧ listenersRes
        (finalSt (suspendListener 0 "evJ" (JsVal.obj 1) (JsVal.fn 41) (bodyOf bres)) c10heap)
        0 "evJ"
      = [(JsVal.obj 1, JsVal.fn 40)] := by
  cases bres <;> exact ⟨rfl, rfl⟩

end EmberEvents
